import Mathlib

/-!
Shallow embedding of the rust-ecs-integrated core: the `scene.rs` Scene
(pool + free list + active list + group buckets + factories), the
`ecs/scene.rs` Scene and its dispatch loop (`ecs/mod.rs`), and the
`pool.rs` Pool with the `events.rs` Messenger flushed by `lib.rs`
`ECS::update`.  Machine integers are modelled as `Nat` (no arithmetic
overflow is reachable: all values are vector indices).  A Rust call that
can panic (slice indexing out of bounds) is embedded as an `Option`
result where the claims depend on it; `none` models the panic.
-/

/-- Model of `Vec::pop`: removes and returns the last element. -/
def popLast {α : Type _} : List α → Option (α × List α)
  | [] => none
  | [x] => some (x, [])
  | x :: y :: xs =>
    match popLast (y :: xs) with
    | none => none
    | some (z, zs) => some (z, x :: zs)

/-- Model of `Iterator::position`: index of the first element satisfying
the predicate. -/
def position {α : Type _} (p : α → Bool) : List α → Option Nat
  | [] => none
  | x :: xs => if p x then some 0 else (position p xs).map (· + 1)

/-! ## `src/scene.rs`: the factory-driven Scene -/

namespace Core

/-- `src/scene.rs`: `pub type Pointer = usize`. -/
abbrev Pointer := Nat

/-- `src/spawns.rs`: `pub type Group = usize`. -/
abbrev Group := Nat

/-- `src/spawns.rs` `Spawn`: handle `{pointer, group, name}`.  The name is
the 16-byte zero-padded buffer, modelled as a list of byte values.
Note `impl PartialEq for Spawn` compares by pointer only; source-level
`==` on spawns is therefore modelled by comparing `pointer` fields, never
by this structural equality. -/
structure Spawn where
  pointer : Pointer
  group : Group
  name : List Nat
deriving DecidableEq, Repr

instance : Inhabited Spawn := ⟨{ pointer := 0, group := 0, name := List.replicate 16 0 }⟩

/-- `Spawn::new_name`: copy the first 16 bytes, zero-padding past the end
of the argument. -/
def newName (bytes : List Nat) : List Nat :=
  (List.range 16).map (fun i => if i < bytes.length then bytes.getD i 0 else 0)

/-- `src/scene.rs` `SceneError`. -/
inductive SceneError where
  | Overflow
  | OutOfBounds
  | GroupNotFound
  | FactoryNotFound
deriving DecidableEq, Repr

/-- `src/scene.rs` `Scene<T>`.  `factories` holds each factory's `build`
as a function; `pool` the `RefCell` payload slots; `groups` one pointer
bucket per factory.  `itter_count` is omitted (used only by an unrelated
iterator impl in another file). -/
structure Scene (T : Type _) where
  factories : List (Spawn → T)
  pool : List T
  spawns : List Spawn
  free : List Pointer
  in_use : List Spawn
  groups : List (List Pointer)

variable {T : Type _} [Inhabited T]

/-- `Scene::new(size, factories)`.  Note the source resizes EVERY group
bucket to `size` default pointers (`group.resize_with(size, Pointer::default)`),
so each bucket starts holding `size` copies of pointer 0. -/
def Scene.new (size : Nat) (factories : List (Spawn → T)) : Scene T :=
  { factories := factories
    pool := List.replicate size default
    spawns := (List.range size).map
      (fun i => { pointer := i, group := 0, name := List.replicate 16 0 })
    free := List.range size
    in_use := []
    groups := List.replicate factories.length (List.replicate size 0) }

/-- `Scene::size`. -/
def Scene.size (s : Scene T) : Nat := s.pool.length

/-- `Scene::list_spawned`: cloned copy of `in_use`. -/
def Scene.list_spawned (s : Scene T) : List Spawn := s.in_use

/-- `Scene::get_ref`: `self.pool[spawn.pointer].borrow()`.  The slice
index panics when the pointer is out of range; `none` models the panic. -/
def Scene.get_ref (s : Scene T) (spawn : Spawn) : Option T :=
  s.pool.get? spawn.pointer

/-- `Scene::get_mut`: same indexing as `get_ref` (mutable borrow). -/
def Scene.get_mut (s : Scene T) (spawn : Spawn) : Option T :=
  s.pool.get? spawn.pointer

/-- `Scene::spawn(name, group)`. -/
def Scene.spawn (s : Scene T) (name : List Nat) (group : Group) :
    Scene T × Except SceneError Spawn :=
  if group ≥ s.groups.length then
    (s, .error .GroupNotFound)
  else
    match popLast s.free with
    | some (pointer, free') =>
      let sp : Spawn := { pointer := pointer, group := group, name := newName name }
      ({ s with
          spawns := s.spawns.set pointer sp
          free := free'
          in_use := s.in_use ++ [sp]
          groups := s.groups.set group (s.groups.getD group [] ++ [pointer])
          pool := s.pool.set pointer ((s.factories.getD group (fun _ => default)) sp) },
        .ok sp)
    | none => (s, .error .Overflow)

/-- `Scene::destroy(spawn)`.  When the pointer is active, the source then
indexes `self.groups[spawn.group]`, which panics if the handle's group is
out of range; `none` models that panic.  An inactive pointer is a
no-op. -/
def Scene.destroy (s : Scene T) (spawn : Spawn) : Option (Scene T) :=
  match position (fun x => x.pointer == spawn.pointer) s.in_use with
  | none => some s
  | some u_index =>
    if spawn.group < s.groups.length then
      let bucket := s.groups.getD spawn.group []
      let groups' :=
        match position (fun x => x == spawn.pointer) bucket with
        | none => s.groups
        | some g_index => s.groups.set spawn.group (bucket.eraseIdx g_index)
      some { s with
        groups := groups'
        in_use := s.in_use.eraseIdx u_index
        free := s.free ++ [spawn.pointer] }
    else none

/-- `Scene::exists`: `self.in_use.contains(spawn)` under the
pointer-only `PartialEq`. -/
def Scene.exists (s : Scene T) (spawn : Spawn) : Bool :=
  s.in_use.any (fun x => x.pointer == spawn.pointer)

/-- `Scene::exists_in_group`: `self.groups[group].contains(spawn.pointer())`.
The group index is NOT range-checked; `none` models the panic on an
out-of-range group. -/
def Scene.exists_in_group (s : Scene T) (spawn : Spawn) (group : Group) :
    Option Bool :=
  match s.groups.get? group with
  | none => none
  | some bucket => some (bucket.contains spawn.pointer)

/-- `Scene::search_components_in_group(group, predicate)`: guarded, then a
linear scan of the bucket returning the spawn record of the first pointer
whose payload satisfies the predicate. -/
def Scene.search_components_in_group (s : Scene T) (group : Group)
    (predicate : T → Bool) : Option Spawn :=
  if group ≥ s.groups.length then none
  else
    match (s.groups.getD group []).find? (fun p => predicate (s.pool.getD p default)) with
    | some p => some (s.spawns.getD p default)
    | none => none

/-- `Scene::compare_all(on_compare)`: nested scan of `in_use × in_use`,
skipping pairs equal under the pointer-only `PartialEq`, returning the
first pair whose payloads satisfy the predicate. -/
def Scene.compare_all (s : Scene T) (on_compare : T → T → Bool) :
    Option (Spawn × Spawn) :=
  s.in_use.findSome? (fun spawn_a =>
    (s.in_use.find? (fun spawn_b =>
        !(spawn_a.pointer == spawn_b.pointer) &&
          on_compare (s.pool.getD spawn_a.pointer default)
            (s.pool.getD spawn_b.pointer default))).map
      (fun spawn_b => (spawn_a, spawn_b)))

end Core

/-! ## `src/ecs/scene.rs` and `src/ecs/mod.rs`: the group-count Scene and
its dispatch loop -/

namespace Ecs

/-- `src/ecs/scene.rs` `Spawn`: `{pointer, group}` (no name). -/
structure Spawn where
  pointer : Nat
  group : Nat
deriving DecidableEq, Repr

instance : Inhabited Spawn := ⟨{ pointer := 0, group := 0 }⟩

/-- `src/ecs/scene.rs` `SceneError`. -/
inductive SceneError where
  | Overflow
  | OutOfBounds
  | GroupNotFound
deriving DecidableEq, Repr

/-- `src/ecs/scene.rs` `Scene<Entity>`. -/
structure Scene (T : Type _) where
  pool : List T
  free : List Nat
  in_use : List Spawn
  groups : List (List Nat)
  itter_count : Nat

variable {T : Type _} [Inhabited T]

/-- `Scene::new(size, num_groups)`: default pool slots, all pointers free,
`num_groups` EMPTY buckets (`Vec::with_capacity`). -/
def Scene.new (size : Nat) (num_groups : Nat) : Scene T :=
  { pool := List.replicate size default
    free := List.range size
    in_use := []
    groups := List.replicate num_groups []
    itter_count := 0 }

/-- `Scene::get`/`get_mut`: unchecked pool indexing (only reached with
in-range pointers from `in_use` in the dispatch loop). -/
def Scene.get (s : Scene T) (pointer : Nat) : T :=
  s.pool.getD pointer default

/-- `Scene::clone_spawn(pointer)`: range-checked clone of a slot. -/
def Scene.clone_spawn (s : Scene T) (pointer : Nat) : Except SceneError T :=
  if pointer ≥ s.pool.length then .error .OutOfBounds
  else .ok (s.pool.getD pointer default)

/-- `Scene::spawn_list`: cloned copy of `in_use`. -/
def Scene.spawn_list (s : Scene T) : List Spawn := s.in_use

/-- `Scene::wipe(pointer)`: reset the slot to its default value. -/
def Scene.wipe (s : Scene T) (pointer : Nat) : Scene T :=
  { s with pool := s.pool.set pointer default }

/-- `Scene::spawn(group)`: range-check the group, pop a free pointer,
register it in `in_use` and the group bucket, wipe the slot. -/
def Scene.spawn (s : Scene T) (group : Nat) : Scene T × Except SceneError Nat :=
  if group ≥ s.groups.length then
    (s, .error .GroupNotFound)
  else
    match popLast s.free with
    | some (pointer, free') =>
      ({ s with
          free := free'
          in_use := s.in_use ++ [{ pointer := pointer, group := group }]
          groups := s.groups.set group (s.groups.getD group [] ++ [pointer])
          pool := s.pool.set pointer default },
        .ok pointer)
    | none => (s, .error .Overflow)

/-- `Scene::destroy(pointer)`: remove the first matching entry from
`in_use` and return the pointer to the free list.  Note the group bucket
is NOT touched. -/
def Scene.destroy (s : Scene T) (pointer : Nat) : Scene T :=
  match position (fun x => x.pointer == pointer) s.in_use with
  | none => s
  | some index =>
    { s with in_use := s.in_use.eraseIdx index, free := s.free ++ [pointer] }

/-- `Scene::exists(pointer)`. -/
def Scene.exists (s : Scene T) (pointer : Nat) : Bool :=
  if s.in_use.length < 1 then false
  else (position (fun x => x.pointer == pointer) s.in_use).isSome

/-- `Scene::exists_in_group(pointer, group)`: guarded bucket membership. -/
def Scene.exists_in_group (s : Scene T) (pointer : Nat) (group : Nat) : Bool :=
  if group ≥ s.groups.length then false
  else (s.groups.getD group []).contains pointer

/-- `Scene::find_in_group(group, predicate)`: guarded bucket scan. -/
def Scene.find_in_group (s : Scene T) (group : Nat) (predicate : T → Bool) :
    Option Nat :=
  if group ≥ s.groups.length then none
  else (s.groups.getD group []).find? (fun i => predicate (s.pool.getD i default))

/-- `src/ecs/mod.rs` `System` trait: an applicability predicate over a
payload and an update given the handle and mutable Scene access (the
trait object's own mutable state plays no role in the dispatch claims and
is not modelled). -/
structure System (T : Type _) where
  requirements : T → Bool
  update : Spawn → Scene T → Scene T

/-- One step of a system pass: `if sys.requirements(&scene.get_mut(&spawn))
{ sys.update(&spawn, &mut scene) }`. -/
def passStep (sys : System T) (s : Scene T) (sp : Spawn) : Scene T :=
  if sys.requirements (s.get sp.pointer) then sys.update sp s else s

/-- The inner loop of `ECS::update` over an already-captured snapshot. -/
def runPassAux (sys : System T) : List Spawn → Scene T → Scene T
  | [], s => s
  | sp :: rest, s => runPassAux sys rest (passStep sys s sp)

/-- One system's pass in `ECS::update`: iterate the snapshot
`scene.spawn_list()` taken at the start of the pass. -/
def runPass (sys : System T) (s : Scene T) : Scene T :=
  runPassAux sys s.spawn_list s

/-- `src/ecs/mod.rs` `ECS::update`: every registered system runs one pass,
in registration order. -/
def ECS.update (systems : List (System T)) (s : Scene T) : Scene T :=
  systems.foldl (fun s sys => runPass sys s) s

/-- Instrumented inner loop: additionally records the sequence of handles
the pass visits (the handles on which the requirements check runs). -/
def runPassVisitedAux (sys : System T) : List Spawn → Scene T → List Spawn × Scene T
  | [], s => ([], s)
  | sp :: rest, s =>
    let (v, sf) := runPassVisitedAux sys rest (passStep sys s sp)
    (sp :: v, sf)

/-- Instrumented pass: handles visited plus the resulting state. -/
def runPassVisited (sys : System T) (s : Scene T) : List Spawn × Scene T :=
  runPassVisitedAux sys s.spawn_list s

/-- Instrumented `ECS::update`: the per-system visited-handle lists plus
the final state. -/
def updateTrace (systems : List (System T)) (s : Scene T) :
    List (List Spawn) × Scene T :=
  match systems with
  | [] => ([], s)
  | sys :: rest =>
    let (v, s1) := runPassVisited sys s
    let (tr, sf) := updateTrace rest s1
    (v :: tr, sf)

/-- Specification of the snapshots, from the spec's words: the snapshot
for each system's pass is the list of handles active at the start of that
pass, i.e. after all previous systems' passes (including any mid-pass
spawns and destroys they performed). -/
def snapshotsSpec : List (System T) → Scene T → List (List Spawn)
  | [], _ => []
  | sys :: rest, s => s.spawn_list :: snapshotsSpec rest (runPass sys s)

end Ecs

/-! ## `src/pool.rs`, `src/events.rs`, `src/lib.rs`: the Pool, the
Messenger, and the event flush inside `ECS::update` -/

namespace Lib

/-- `src/pool.rs` `Pool<T>`. -/
structure Pool (T : Type _) where
  pool : List T
  free : List Nat
  in_use : List Nat
deriving DecidableEq, Repr

variable {T : Type _} [Inhabited T]

/-- `Pool::new(size)`. -/
def Pool.new (size : Nat) : Pool T :=
  { pool := List.replicate size default
    free := List.range size
    in_use := [] }

/-- `Pool::wipe(pointer)`. -/
def Pool.wipe (p : Pool T) (pointer : Nat) : Pool T :=
  { p with pool := p.pool.set pointer default }

/-- `Pool::spawn()`. -/
def Pool.spawn (p : Pool T) : Pool T × Except Unit Nat :=
  match popLast p.free with
  | some (index, free') =>
    (Pool.wipe { p with free := free', in_use := p.in_use ++ [index] } index,
      .ok index)
  | none => (p, .error ())

/-- `Pool::destroy(pointer)`: remove the first matching entry from
`in_use` (if any) and push the pointer onto `free`. -/
def Pool.destroy (p : Pool T) (pointer : Nat) : Pool T :=
  match position (fun x => x == pointer) p.in_use with
  | none => p
  | some index =>
    { p with in_use := p.in_use.eraseIdx index, free := p.free ++ [pointer] }

/-- `Pool::edit(pointer, action)`: apply the action to the slot when the
pointer is within capacity, silently do nothing otherwise.  Active status
is NOT consulted. -/
def Pool.edit (p : Pool T) (pointer : Nat) (action : T → T) : Pool T :=
  if pointer < p.pool.length then
    { p with pool := p.pool.set pointer (action (p.pool.getD pointer default)) }
  else p

/-- `Pool::exists(pointer)`. -/
def Pool.exists (p : Pool T) (pointer : Nat) : Bool :=
  if p.in_use.length < 1 then false else p.in_use.contains pointer

/-- `src/events.rs` `EventHook`. -/
structure EventHook (E : Type _) where
  sender : Nat
  receiver : Nat
  event : E
deriving DecidableEq, Repr

/-- `src/events.rs` `Messenger`: an ordered queue of hooks. -/
abbrev Messenger (E : Type _) := List (EventHook E)

/-- `Messenger::tell(sender, receiver, event)`: push one hook at the back
of the queue. -/
def Messenger.tell {E : Type _} (m : Messenger E) (sender receiver : Nat)
    (event : E) : Messenger E :=
  m ++ [{ sender := sender, receiver := receiver, event := event }]

/-- The flush loop of `src/lib.rs` `ECS::update`: for each queued hook in
order, `self.entities.edit(&h.receiver, |e| e.components.event_handler(h.event, h.sender))`.
`handler` is the payload's `event_handler`. -/
def flush {E : Type _} (handler : T → E → Nat → T) (p : Pool T)
    (hooks : List (EventHook E)) : Pool T :=
  hooks.foldl (fun q h => q.edit h.receiver (fun c => handler c h.event h.sender)) p

/-- Instrumented flush: additionally records, in order, one entry
`(receiver, event, sender)` per handler invocation actually performed. -/
def flushTrace {E : Type _} (handler : T → E → Nat → T) (p : Pool T) :
    List (EventHook E) → Pool T × List (Nat × E × Nat)
  | [] => (p, [])
  | h :: rest =>
    if h.receiver < p.pool.length then
      let p' := p.edit h.receiver (fun c => handler c h.event h.sender)
      let (pf, tr) := flushTrace handler p' rest
      (pf, (h.receiver, h.event, h.sender) :: tr)
    else
      flushTrace handler p rest

end Lib

/-! ## Claim-support definitions -/

namespace Core

/-- Pointers of a spawn list. -/
def ptrs (l : List Spawn) : List Nat := l.map (fun sp => sp.pointer)

/-- One mutating call on a Scene: a `spawn` or a `destroy`. -/
inductive Op where
  | spawnOp (name : List Nat) (group : Group)
  | destroyOp (spawn : Spawn)

variable {T : Type _} [Inhabited T]

/-- Execute one call; `none` models a panic inside `destroy`. -/
def step (s : Scene T) : Op → Option (Scene T)
  | .spawnOp name group => some (s.spawn name group).1
  | .destroyOp sp => s.destroy sp

/-- Execute a sequence of calls, stopping at a panic. -/
def run (s : Scene T) : List Op → Option (Scene T)
  | [] => some s
  | op :: ops =>
    match step s op with
    | none => none
    | some s' => run s' ops

/-- Inductive bookkeeping invariant of the free/active lists. -/
def Inv (s : Scene T) : Prop :=
  s.free.Nodup ∧ (ptrs s.in_use).Nodup ∧
    (∀ p ∈ s.free, p ∉ ptrs s.in_use) ∧
    s.free.length + s.in_use.length = s.pool.length

/-- The capacity property of claim C1, stated of the result of a run:
trivially true of a run that panicked (there is no state after the
call). -/
def afterRunInv (size : Nat) : Option (Scene T) → Prop
  | none => True
  | some s => s.free.length + s.in_use.length = size ∧
      ∀ p, ¬(p ∈ s.free ∧ p ∈ ptrs s.in_use)

/-- The contract of `Scene::spawn` (claim C2): the group range is
validated first (state unchanged on `GroupNotFound`), an empty free list
yields `Overflow` with the state unchanged and no internal retry, and
otherwise the popped pointer is registered in the active list and the
group bucket with the payload built by the group's factory. -/
def SpawnBehavior (s : Scene T) (name : List Nat) (group : Group) : Prop :=
  (group ≥ s.groups.length → s.spawn name group = (s, .error .GroupNotFound)) ∧
  (group < s.groups.length → s.free = [] →
      s.spawn name group = (s, .error .Overflow)) ∧
  (group < s.groups.length → group < s.factories.length) ∧
  (∀ p free', group < s.groups.length → popLast s.free = some (p, free') →
      ∃ hf : group < s.factories.length,
        s.spawn name group =
          ({ s with
              spawns := s.spawns.set p { pointer := p, group := group, name := newName name }
              free := free'
              in_use := s.in_use ++ [{ pointer := p, group := group, name := newName name }]
              groups := s.groups.set group (s.groups.getD group [] ++ [p])
              pool := s.pool.set p (s.factories.get ⟨group, hf⟩
                { pointer := p, group := group, name := newName name }) },
            .ok { pointer := p, group := group, name := newName name }))

/-- All ordered pairs of two lists, in the nested-loop scan order of
`Scene::compare_all`. -/
def pairsL {α β : Type _} (l₁ : List α) (l₂ : List β) : List (α × β) :=
  l₁.flatMap (fun a => l₂.map (fun b => (a, b)))

/-- Specification of `compare_all` written from the claim: the first
ordered pair of active handles, scanned in nested order, whose pointers
differ and whose payloads satisfy the predicate. -/
def compareAllSpec (s : Scene T) (on_compare : T → T → Bool) :
    Option (Spawn × Spawn) :=
  (pairsL s.in_use s.in_use).find? (fun ab =>
    !(ab.1.pointer == ab.2.pointer) &&
      on_compare (s.pool.getD ab.1.pointer default)
        (s.pool.getD ab.2.pointer default))

end Core

namespace Ecs

/-- Demo system for the snapshot-isolation scenario: destroys the entity
at pointer 0 while visiting the handle with pointer 1. -/
def demoSysA : System Nat :=
  { requirements := fun _ => true
    update := fun sp s => if sp.pointer == 1 then s.destroy 0 else s }

/-- Demo system doing nothing: its pass only takes a fresh snapshot. -/
def demoSysB : System Nat :=
  { requirements := fun _ => true
    update := fun _ s => s }

/-- Capacity-2 scene with one group and both slots spawned (pointers 1
then 0, in `Vec::pop` order). -/
def demoScene : Scene Nat :=
  (((Scene.new 2 1 : Scene Nat).spawn 0).1.spawn 0).1

end Ecs

namespace Lib

/-- FIFO delivery contract of the messenger flush (claim C4): one handler
invocation per queued hook, in enqueue order; in particular two `tell`
calls to the same receiver are delivered first-event-first. -/
def FlushFifo {T E : Type _} [Inhabited T] (handler : T → E → Nat → T)
    (p : Pool T) (hooks : List (EventHook E)) : Prop :=
  (flushTrace handler p hooks).2 =
      hooks.map (fun h => (h.receiver, h.event, h.sender)) ∧
  ∀ (q : Messenger E) (sdr rcv : Nat) (e1 e2 : E),
    hooks = Messenger.tell (Messenger.tell q sdr rcv e1) sdr rcv e2 →
    (flushTrace handler p hooks).2 =
      q.map (fun h => (h.receiver, h.event, h.sender)) ++
        [(rcv, e1, sdr), (rcv, e2, sdr)]

end Lib

/-! ## Helper lemmas about the list-operation models -/

theorem popLast_nil {α : Type _} : popLast ([] : List α) = none := rfl

theorem popLast_append_singleton {α : Type _} (l : List α) (x : α) :
    popLast (l ++ [x]) = some (x, l) := by
  induction l with
  | nil => rfl
  | cons a l ih =>
    cases l with
    | nil => simp [popLast] at ih ⊢
    | cons b l => simp [popLast] at ih ⊢; simp [ih]

theorem popLast_eq_some {α : Type _} {l l' : List α} {x : α}
    (h : popLast l = some (x, l')) : l = l' ++ [x] := by
  induction l generalizing l' with
  | nil => simp [popLast] at h
  | cons a t ih =>
    cases t with
    | nil => simp [popLast] at h; simp [h.1, h.2.symm]
    | cons b t =>
      simp only [popLast] at h
      cases hp : popLast (b :: t) with
      | none => rw [hp] at h; simp at h
      | some p =>
        rw [hp] at h
        obtain ⟨z, zs⟩ := p
        simp at h
        obtain ⟨hz, hl⟩ := h
        subst hz
        have := ih hp
        rw [← hl, this]; simp

theorem popLast_eq_none {α : Type _} {l : List α}
    (h : popLast l = none) : l = [] := by
  cases l with
  | nil => rfl
  | cons a t =>
    cases t with
    | nil => simp [popLast] at h
    | cons b t =>
      simp only [popLast] at h
      cases hp : popLast (b :: t) with
      | none => exact absurd (popLast_eq_none hp) (by simp)
      | some p => rw [hp] at h; simp at h

theorem position_eq_none {α : Type _} {p : α → Bool} {l : List α}
    (h : position p l = none) : ∀ a ∈ l, p a = false := by
  induction l with
  | nil => intro a ha; simp at ha
  | cons x xs ih =>
    intro a ha
    simp only [position] at h
    by_cases hx : p x
    · simp [hx] at h
    · rcases List.mem_cons.mp ha with rfl | hmem
      · simpa using hx
      · cases hp : position p xs with
        | none => exact ih hp a hmem
        | some i => rw [hp] at h; simp [hx] at h

theorem position_eq_some {α : Type _} {p : α → Bool} {l : List α} {i : Nat}
    (h : position p l = some i) :
    ∃ l₁ a l₂, l = l₁ ++ a :: l₂ ∧ l₁.length = i ∧ p a = true ∧
      l.eraseIdx i = l₁ ++ l₂ := by
  induction l generalizing i with
  | nil => simp [position] at h
  | cons x xs ih =>
    simp only [position] at h
    by_cases hx : p x
    · simp [hx] at h
      exact ⟨[], x, xs, by simp, by simp [← h], by simpa using hx, by simp [← h]⟩
    · simp [hx] at h
      cases hp : position p xs with
      | none => rw [hp] at h; simp at h
      | some j =>
        rw [hp] at h; simp at h
        obtain ⟨l₁, a, l₂, hl, hlen, hpa, herase⟩ := ih hp
        refine ⟨x :: l₁, a, l₂, by simp [hl], by simp [hlen, h], hpa, ?_⟩
        rw [← h]
        have hstep : (x :: xs).eraseIdx (j + 1) = x :: xs.eraseIdx j := rfl
        rw [hstep, herase]
        simp

/-! ## Nested-scan and flush helper lemmas -/

theorem findSome?_pairsL {α β : Type _} (l₀ : List β) (p : α → β → Bool) :
    ∀ l : List α,
      l.findSome? (fun a => (l₀.find? (p a)).map (fun b => (a, b))) =
        (Core.pairsL l l₀).find? (fun ab => p ab.1 ab.2) := by
  intro l
  induction l with
  | nil => rfl
  | cons a l ih =>
    rw [List.findSome?_cons]
    have hpairs : Core.pairsL (a :: l) l₀ =
        l₀.map (fun b => (a, b)) ++ Core.pairsL l l₀ := by
      simp [Core.pairsL]
    rw [hpairs, List.find?_append, List.find?_map]
    cases hfa : l₀.find? (p a) with
    | none =>
      have : l₀.find? ((fun ab : α × β => p ab.1 ab.2) ∘ fun b => (a, b)) = none := hfa
      rw [this]
      simpa using ih
    | some b =>
      have : l₀.find? ((fun ab : α × β => p ab.1 ab.2) ∘ fun b => (a, b)) = some b := hfa
      rw [this]
      rfl

theorem Lib.Pool.edit_pool_length {T : Type _} [Inhabited T] (p : Lib.Pool T)
    (r : Nat) (f : T → T) : (p.edit r f).pool.length = p.pool.length := by
  unfold Lib.Pool.edit
  split <;> simp

theorem Lib.Pool.destroy_pool {T : Type _} [Inhabited T] (p : Lib.Pool T)
    (x : Nat) : (p.destroy x).pool = p.pool := by
  unfold Lib.Pool.destroy
  cases hpos : position (fun y => y == x) p.in_use <;> simp

theorem flushTrace_congr_pool {T E : Type _} [Inhabited T]
    (handler : T → E → Nat → T) :
    ∀ (hooks : List (Lib.EventHook E)) (p q : Lib.Pool T), p.pool = q.pool →
      (Lib.flushTrace handler p hooks).2 = (Lib.flushTrace handler q hooks).2 ∧
      (Lib.flushTrace handler p hooks).1.pool =
        (Lib.flushTrace handler q hooks).1.pool := by
  intro hooks
  induction hooks with
  | nil => intro p q hpq; exact ⟨rfl, hpq⟩
  | cons h rest ih =>
    intro p q hpq
    unfold Lib.flushTrace
    by_cases hr : h.receiver < p.pool.length
    · rw [if_pos hr, if_pos (hpq ▸ hr)]
      have hedit : (p.edit h.receiver (fun c => handler c h.event h.sender)).pool =
          (q.edit h.receiver (fun c => handler c h.event h.sender)).pool := by
        unfold Lib.Pool.edit
        rw [if_pos hr, if_pos (hpq ▸ hr)]
        simp [hpq]
      have := ih _ _ hedit
      exact ⟨by simp [this.1], by simp [this.2]⟩
    · rw [if_neg hr, if_neg (hpq ▸ hr)]
      exact ih _ _ hpq

theorem flushTrace_filter {T E : Type _} [Inhabited T]
    (handler : T → E → Nat → T) :
    ∀ (hooks : List (Lib.EventHook E)) (p : Lib.Pool T),
      (Lib.flushTrace handler p hooks).2 =
        (hooks.filter (fun h => decide (h.receiver < p.pool.length))).map
          (fun h => (h.receiver, h.event, h.sender)) := by
  intro hooks
  induction hooks with
  | nil => intro p; rfl
  | cons h rest ih =>
    intro p
    unfold Lib.flushTrace
    by_cases hr : h.receiver < p.pool.length
    · rw [if_pos hr]
      have hlen : (p.edit h.receiver (fun c => handler c h.event h.sender)).pool.length
          = p.pool.length := Lib.Pool.edit_pool_length p _ _
      have := ih (p.edit h.receiver (fun c => handler c h.event h.sender))
      rw [hlen] at this
      simp [this, List.filter_cons, hr]
    · rw [if_neg hr]
      simp [ih p, List.filter_cons, hr]

/-! ## Claim theorems -/

/-- C9: for every scene state and binary predicate, `compare_all` returns
the first ordered pair of distinct active entities satisfying the
predicate, scanning the active handles in nested order (`None` when no
such pair exists), and never returns a pair whose two handles share a
pointer — handle distinctness being pointer equality only. -/
theorem compare_all_first_distinct_pair {T : Type} [Inhabited T]
    (s : Core.Scene T) (f : T → T → Bool) :
    s.compare_all f = Core.compareAllSpec s f ∧
    (s.compare_all f).all (fun ab => !(ab.1.pointer == ab.2.pointer)) = true := by
  have heq : s.compare_all f = Core.compareAllSpec s f := by
    unfold Core.Scene.compare_all Core.compareAllSpec
    exact findSome?_pairsL s.in_use
      (fun a b => !(a.pointer == b.pointer) &&
        f (s.pool.getD a.pointer default) (s.pool.getD b.pointer default))
      s.in_use
  refine ⟨heq, ?_⟩
  rw [heq]
  unfold Core.compareAllSpec
  cases hf : (Core.pairsL s.in_use s.in_use).find? (fun ab =>
      !(ab.1.pointer == ab.2.pointer) &&
        f (s.pool.getD ab.1.pointer default) (s.pool.getD ab.2.pointer default)) with
  | none => rfl
  | some ab =>
    have := List.find?_some hf
    simp only [Bool.and_eq_true] at this
    simp [this.1]

/-- C10: at flush inside `ECS::update`, a hook whose receiver pointer is
within pool capacity gets exactly one handler invocation (in queue
order), whether or not the receiver is still active — in particular
destroying any entity between `tell()` and the flush changes nothing
about the deliveries — while a hook whose receiver is at or beyond
capacity is silently skipped, and an in-bounds delivery applies the
handler to the payload stored in the receiver's slot. -/
theorem flush_delivery_policy {T E : Type} [Inhabited T]
    (handler : T → E → Nat → T) (p : Lib.Pool T)
    (hooks : List (Lib.EventHook E)) :
    (Lib.flushTrace handler p hooks).2 =
      (hooks.filter (fun h => decide (h.receiver < p.pool.length))).map
        (fun h => (h.receiver, h.event, h.sender)) ∧
    (∀ x, (Lib.flushTrace handler (p.destroy x) hooks).2 =
        (Lib.flushTrace handler p hooks).2) ∧
    (∀ h : Lib.EventHook E, (Lib.flushTrace handler p [h]).1.pool =
        if h.receiver < p.pool.length
        then p.pool.set h.receiver
          (handler (p.pool.getD h.receiver default) h.event h.sender)
        else p.pool) := by
  refine ⟨flushTrace_filter handler hooks p, ?_, ?_⟩
  · intro x
    exact (flushTrace_congr_pool handler hooks (p.destroy x) p
      (Lib.Pool.destroy_pool p x)).1
  · intro h
    unfold Lib.flushTrace
    by_cases hr : h.receiver < p.pool.length
    · rw [if_pos hr, if_pos hr]
      simp [Lib.flushTrace, Lib.Pool.edit, hr]
    · rw [if_neg hr, if_neg hr]
      simp [Lib.flushTrace]

/-- C4: `tell(sender, receiver, event)` appends one EventHook in FIFO
call order, and at flush every queued hook (receivers being entity
pointers, hence within capacity) is delivered in enqueue order with
exactly one handler invocation per hook; two `tell` calls to the same
receiver within one pass are observed first-event-first, with no batching
or coalescing. -/
theorem event_fifo_delivery {T E : Type} [Inhabited T]
    (handler : T → E → Nat → T) (p : Lib.Pool T)
    (hooks : List (Lib.EventHook E))
    (hb : ∀ h ∈ hooks, h.receiver < p.pool.length) :
    Lib.FlushFifo handler p hooks := by
  have hall : (Lib.flushTrace handler p hooks).2 =
      hooks.map (fun h => (h.receiver, h.event, h.sender)) := by
    rw [flushTrace_filter handler hooks p]
    rw [List.filter_eq_self.mpr (fun h hm => decide_eq_true (hb h hm))]
  refine ⟨hall, ?_⟩
  intro q sdr rcv e1 e2 hq
  rw [hall, hq]
  simp [Lib.Messenger.tell]

/-- Witness for C4 at a concrete pool and two-hook queue. -/
theorem event_fifo_delivery_witness :
    Lib.FlushFifo (fun (c : Nat) (e : Nat) (_ : Nat) => c + e)
      (Lib.Pool.new 2) [⟨0, 1, 5⟩, ⟨0, 1, 7⟩] :=
  event_fifo_delivery (fun c e _ => c + e) (Lib.Pool.new 2)
    [⟨0, 1, 5⟩, ⟨0, 1, 7⟩] (by decide)

/-- C5: refuted by evaluation — `Scene::new` pre-fills every group bucket
with `size` copies of pointer 0, so a freshly built scene with one
factory and capacity 1 has pointer 0 in bucket 0 with nothing active:
the group-scoped search returns an inactive handle and the bucket
membership test reports an inactive pointer as spawned; moreover the
`ecs` Scene's `destroy` never removes a pointer from its group bucket, so
after spawn-then-destroy the bucket still reports the destroyed pointer
as present while `exists` denies it. -/
theorem group_bucket_inactive_pointer_bug :
    (Core.Scene.new 1 [fun _ => (0 : Nat)]).in_use = [] ∧
    ((Core.Scene.new 1 [fun _ => (0 : Nat)]).search_components_in_group 0
        (fun _ => true)).isSome = true ∧
    (Core.Scene.new 1 [fun _ => (0 : Nat)]).exists_in_group default 0 =
      some true ∧
    ((((Ecs.Scene.new 2 1 : Ecs.Scene Nat).spawn 0).1.destroy 1).exists_in_group
        1 0 = true ∧
      (((Ecs.Scene.new 2 1 : Ecs.Scene Nat).spawn 0).1.destroy 1).exists 1 =
        false) := by
  refine ⟨rfl, rfl, rfl, rfl, rfl⟩

/-- C7: refuted by evaluation for `src/scene.rs` `exists_in_group`, which
indexes `self.groups[group]` without a range check and therefore panics
(modelled as `none`) on an out-of-range group, while the sibling
group-scoped queries (`search_components_in_group`, and the `ecs` Scene's
`exists_in_group` and `find_in_group`) all guard the range and return
"not found". -/
theorem exists_in_group_out_of_range_panics :
    (Core.Scene.new 1 [fun _ => (0 : Nat)]).exists_in_group default 1 = none ∧
    (Core.Scene.new 1 [fun _ => (0 : Nat)]).search_components_in_group 1
      (fun _ => true) = none ∧
    (Ecs.Scene.new 1 1 : Ecs.Scene Nat).exists_in_group 0 1 = false ∧
    (Ecs.Scene.new 1 1 : Ecs.Scene Nat).find_in_group 1 (fun _ => true) =
      none := by
  refine ⟨rfl, rfl, rfl, rfl⟩

/-- C8 counterexample: on a capacity-1 scene, `get_ref`/`get_mut` at
pointer 1 do not fail with `OutOfBounds` — they index the pool directly
and panic (modelled as `none`). -/
theorem get_bounds_check_counterexample :
    (Core.Scene.new 1 [fun _ => (0 : Nat)]).get_ref
      { pointer := 1, group := 0, name := [] } = none ∧
    (Core.Scene.new 1 [fun _ => (0 : Nat)]).get_mut
      { pointer := 1, group := 0, name := [] } = none := ⟨rfl, rfl⟩

/-- C8 amended: `Scene::get_ref`/`get_mut` succeed exactly on in-range
pointers and panic (not `OutOfBounds`) beyond capacity, while the
bounds-checked accessor `clone_spawn` of the `ecs` Scene succeeds on
every in-range pointer and fails with `OutOfBounds` on every pointer at
or beyond capacity. -/
theorem get_bounds_check_amended {T : Type} [Inhabited T]
    (s : Core.Scene T) (sp : Core.Spawn) (e : Ecs.Scene T) (p : Nat) :
    (sp.pointer < s.pool.length →
      (s.get_ref sp).isSome = true ∧ (s.get_mut sp).isSome = true) ∧
    (s.pool.length ≤ sp.pointer →
      s.get_ref sp = none ∧ s.get_mut sp = none) ∧
    (p < e.pool.length → e.clone_spawn p = .ok (e.pool.getD p default)) ∧
    (e.pool.length ≤ p → e.clone_spawn p = .error .OutOfBounds) := by
  refine ⟨?_, ?_, ?_, ?_⟩
  · intro h
    constructor <;>
      · show (s.pool.get? sp.pointer).isSome = true
        rw [List.get?_eq_get h]
        rfl
  · intro h
    constructor <;>
      · show s.pool.get? sp.pointer = none
        exact List.get?_eq_none.mpr h
  · intro h
    simp [Ecs.Scene.clone_spawn, Nat.not_le.mpr h]
  · intro h
    simp [Ecs.Scene.clone_spawn, h]

/-- Witness for the amended C8 at a concrete capacity-1 scene. -/
theorem get_bounds_check_amended_witness :
    ((Core.Scene.new 1 [fun _ => (0 : Nat)]).get_ref default).isSome = true ∧
    ((Core.Scene.new 1 [fun _ => (0 : Nat)]).get_mut default).isSome = true ∧
    (Ecs.Scene.new 1 1 : Ecs.Scene Nat).clone_spawn 1 = .error .OutOfBounds := by
  have h := get_bounds_check_amended (Core.Scene.new 1 [fun _ => (0 : Nat)])
    default (Ecs.Scene.new 1 1 : Ecs.Scene Nat) 1
  have h1 := h.1 (by decide)
  exact ⟨h1.1, h1.2, h.2.2.2 (by decide)⟩

theorem runPassVisitedAux_spec {T : Type} [Inhabited T] (sys : Ecs.System T) :
    ∀ (l : List Ecs.Spawn) (s : Ecs.Scene T),
      (Ecs.runPassVisitedAux sys l s).1 = l ∧
      (Ecs.runPassVisitedAux sys l s).2 = Ecs.runPassAux sys l s := by
  intro l
  induction l with
  | nil => intro s; exact ⟨rfl, rfl⟩
  | cons sp rest ih =>
    intro s
    have h := ih (Ecs.passStep sys s sp)
    simp [Ecs.runPassVisitedAux, Ecs.runPassAux, h.1, h.2]

theorem updateTrace_spec {T : Type} [Inhabited T] :
    ∀ (systems : List (Ecs.System T)) (s : Ecs.Scene T),
      (Ecs.updateTrace systems s).1 = Ecs.snapshotsSpec systems s ∧
      (Ecs.updateTrace systems s).2 = Ecs.ECS.update systems s := by
  intro systems
  induction systems with
  | nil => intro s; exact ⟨rfl, rfl⟩
  | cons sys rest ih =>
    intro s
    have hv := runPassVisitedAux_spec sys s.spawn_list s
    have hr := ih (Ecs.runPass sys s)
    constructor
    · show ((Ecs.runPassVisited sys s).1 ::
          (Ecs.updateTrace rest (Ecs.runPassVisited sys s).2).1) =
        s.spawn_list :: Ecs.snapshotsSpec rest (Ecs.runPass sys s)
      rw [show (Ecs.runPassVisited sys s).1 = s.spawn_list from hv.1,
        show (Ecs.runPassVisited sys s).2 = Ecs.runPass sys s from hv.2, hr.1]
    · show (Ecs.updateTrace rest (Ecs.runPassVisited sys s).2).2 =
        Ecs.ECS.update (sys :: rest) s
      rw [show (Ecs.runPassVisited sys s).2 = Ecs.runPass sys s from hv.2, hr.2]
      rfl

/-- C3: during one `update()` tick each registered system's pass iterates
exactly the snapshot of handles active at the start of that pass —
spawns and destroys performed by update calls during the pass do not
change the set of handles the current system visits — and the snapshot
taken for the next system's pass is the active list after the whole
previous pass, so mid-pass changes are reflected there.  The concrete
conjunct shows a system destroying pointer 0 while visiting pointer 1:
its own pass still visits the destroyed handle, the next system's pass
no longer sees it. -/
theorem dispatch_snapshot_isolation :
    (∀ {T : Type} [Inhabited T] (systems : List (Ecs.System T))
        (s : Ecs.Scene T),
      (Ecs.updateTrace systems s).1 = Ecs.snapshotsSpec systems s ∧
      (Ecs.updateTrace systems s).2 = Ecs.ECS.update systems s) ∧
    (∀ {T : Type} [Inhabited T] (sys : Ecs.System T) (s : Ecs.Scene T),
      (Ecs.runPassVisited sys s).1 = s.spawn_list) ∧
    (Ecs.updateTrace [Ecs.demoSysA, Ecs.demoSysB] Ecs.demoScene).1 =
      [[{ pointer := 1, group := 0 }, { pointer := 0, group := 0 }],
        [{ pointer := 1, group := 0 }]] := by
  refine ⟨fun systems s => updateTrace_spec systems s, ?_, ?_⟩
  · intro T _ sys s
    exact (runPassVisitedAux_spec sys s.spawn_list s).1
  · rfl

theorem position_eq_none_of {α : Type _} {p : α → Bool} {l : List α}
    (h : ∀ a ∈ l, p a = false) : position p l = none := by
  induction l with
  | nil => rfl
  | cons x xs ih =>
    have hx := h x (List.mem_cons_self x xs)
    simp [position, hx, ih (fun a ha => h a (List.mem_cons_of_mem x ha))]

theorem Lib.Pool.destroy_absent_noop {T : Type _} [Inhabited T] (p : Lib.Pool T)
    (x : Nat) (h : x ∉ p.in_use) : p.destroy x = p := by
  have hpos : position (fun y => y == x) p.in_use = none :=
    position_eq_none_of (fun a ha => by
      simp only [beq_eq_false_iff_ne, ne_eq]
      rintro rfl
      exact h ha)
  unfold Lib.Pool.destroy
  rw [hpos]

theorem Core.Scene.destroy_inactive_noop {T : Type _} [Inhabited T]
    (s : Core.Scene T) (sp : Core.Spawn)
    (h : sp.pointer ∉ Core.ptrs s.in_use) : s.destroy sp = some s := by
  have hpos : position (fun x => x.pointer == sp.pointer) s.in_use = none :=
    position_eq_none_of (fun a ha => by
      simp only [beq_eq_false_iff_ne, ne_eq]
      intro hv
      exact h (hv ▸ List.mem_map_of_mem (fun z => z.pointer) ha))
  unfold Core.Scene.destroy
  rw [hpos]

/-- C6: destroy is idempotent — destroying a pointer that is not in the
active list leaves the pool state (free and in_use included) exactly
unchanged, for both the `pool.rs` Pool and the `scene.rs` Scene, so no
duplicate pointer is pushed onto the free list and destroying the same
handle twice (under the no-duplicate bookkeeping invariant) has the same
effect as destroying it once. -/
theorem destroy_idempotent {T : Type} [Inhabited T] (p : Lib.Pool T)
    (x : Nat) (s : Core.Scene T) (sp : Core.Spawn) :
    (x ∉ p.in_use → p.destroy x = p) ∧
    (sp.pointer ∉ Core.ptrs s.in_use → s.destroy sp = some s) ∧
    (p.in_use.Nodup → (p.destroy x).destroy x = p.destroy x) := by
  refine ⟨Lib.Pool.destroy_absent_noop p x, Core.Scene.destroy_inactive_noop s sp, ?_⟩
  intro hnd
  cases hpos : position (fun y => y == x) p.in_use with
  | none =>
    have hstep : p.destroy x = p := by
      unfold Lib.Pool.destroy
      rw [hpos]
    rw [hstep]
    exact hstep
  | some i =>
    obtain ⟨l₁, a, l₂, hl, -, hpa, herase⟩ := position_eq_some hpos
    have hax : a = x := by simpa using hpa
    rw [hax] at hl
    have hstep : p.destroy x =
        { p with in_use := l₁ ++ l₂, free := p.free ++ [x] } := by
      unfold Lib.Pool.destroy
      rw [hpos]
      simp [herase]
    rw [hstep]
    apply Lib.Pool.destroy_absent_noop
    show x ∉ l₁ ++ l₂
    rw [hl] at hnd
    exact (List.nodup_cons.mp (List.nodup_middle.mp hnd)).1

/-- Witness for C6 at a concrete pool and scene with nothing active. -/
theorem destroy_idempotent_witness :
    (Lib.Pool.new 2 : Lib.Pool Nat).destroy 0 = Lib.Pool.new 2 ∧
    (Core.Scene.new 1 [fun _ => (0 : Nat)]).destroy default =
      some (Core.Scene.new 1 [fun _ => (0 : Nat)]) ∧
    ((Lib.Pool.new 2 : Lib.Pool Nat).destroy 0).destroy 0 =
      (Lib.Pool.new 2 : Lib.Pool Nat).destroy 0 := by
  have h := destroy_idempotent (Lib.Pool.new 2 : Lib.Pool Nat) 0
    (Core.Scene.new 1 [fun _ => (0 : Nat)]) default
  exact ⟨h.1 (by decide), h.2.1 (by decide), h.2.2 (by decide)⟩

/-- C2: `spawn(name, group)` returns `GroupNotFound` when the group is at
or beyond the registered-group count, else `Overflow` when the free list
is empty — in both cases the scene is returned unchanged (atomicity) and
the `Overflow` case performs no internal retry — and otherwise returns
`Ok` with the handle of the popped pointer, registered in the active list
and the group's bucket, the slot payload rebuilt by the group's
factory. -/
theorem spawn_contract {T : Type} [Inhabited T] (s : Core.Scene T)
    (name : List Nat) (group : Core.Group)
    (hlen : s.groups.length = s.factories.length) :
    Core.SpawnBehavior s name group := by
  refine ⟨?_, ?_, ?_, ?_⟩
  · intro h
    unfold Core.Scene.spawn
    rw [if_pos h]
  · intro hlt hfree
    unfold Core.Scene.spawn
    rw [if_neg (Nat.not_le.mpr hlt), hfree]
    rfl
  · intro hlt
    exact hlen ▸ hlt
  · intro p free' hlt hpop
    refine ⟨hlen ▸ hlt, ?_⟩
    unfold Core.Scene.spawn
    rw [if_neg (Nat.not_le.mpr hlt), hpop,
      List.getD_eq_get s.factories (fun _ => default) (hlen ▸ hlt)]

/-- Witness for C2 at a concrete capacity-1 single-factory scene. -/
theorem spawn_contract_witness :
    Core.SpawnBehavior (Core.Scene.new 1 [fun _ => (0 : Nat)]) [] 0 :=
  spawn_contract (Core.Scene.new 1 [fun _ => (0 : Nat)]) [] 0 rfl

theorem Core.inv_new {T : Type} [Inhabited T] (size : Nat)
    (factories : List (Core.Spawn → T)) :
    Core.Inv (Core.Scene.new size factories) := by
  refine ⟨List.nodup_range size, by simp [Core.ptrs, Core.Scene.new], ?_, ?_⟩
  · intro p hp
    simp [Core.ptrs, Core.Scene.new]
  · simp [Core.Scene.new]

theorem Core.spawn_pool_length {T : Type} [Inhabited T] (s : Core.Scene T)
    (name : List Nat) (group : Core.Group) :
    (s.spawn name group).1.pool.length = s.pool.length := by
  unfold Core.Scene.spawn
  by_cases hg : group ≥ s.groups.length
  · rw [if_pos hg]
  · rw [if_neg hg]
    cases hpop : popLast s.free with
    | none => rfl
    | some pf => obtain ⟨p, free'⟩ := pf; simp

theorem Core.destroy_pool_eq {T : Type} [Inhabited T] {s s' : Core.Scene T}
    {sp : Core.Spawn} (hd : s.destroy sp = some s') : s'.pool = s.pool := by
  unfold Core.Scene.destroy at hd
  cases hpos : position (fun x => x.pointer == sp.pointer) s.in_use with
  | none =>
    rw [hpos] at hd
    cases hd
    rfl
  | some u =>
    simp only [hpos] at hd
    by_cases hg : sp.group < s.groups.length
    · rw [if_pos hg] at hd
      cases hd
      rfl
    · rw [if_neg hg] at hd
      cases hd

theorem Core.inv_spawn {T : Type} [Inhabited T] {s : Core.Scene T}
    (h : Core.Inv s) (name : List Nat) (group : Core.Group) :
    Core.Inv (s.spawn name group).1 := by
  obtain ⟨hnf, hnu, hdisj, hlen⟩ := h
  unfold Core.Scene.spawn
  by_cases hg : group ≥ s.groups.length
  · rw [if_pos hg]
    exact ⟨hnf, hnu, hdisj, hlen⟩
  · rw [if_neg hg]
    cases hpop : popLast s.free with
    | none => exact ⟨hnf, hnu, hdisj, hlen⟩
    | some pf =>
      obtain ⟨p, free'⟩ := pf
      have hfree : s.free = free' ++ [p] := popLast_eq_some hpop
      have hpfree : p ∈ s.free := by rw [hfree]; simp
      have hpnotu : p ∉ Core.ptrs s.in_use := hdisj p hpfree
      have hfr : free'.Nodup ∧ p ∉ free' := by
        have := hfree ▸ hnf
        constructor
        · exact this.of_append_left
        · intro hc
          exact (List.disjoint_of_nodup_append this) hc (by simp)
      refine ⟨hfr.1, ?_, ?_, ?_⟩
      · show (Core.ptrs (s.in_use ++ [_])).Nodup
        simp only [Core.ptrs, List.map_append, List.map_cons, List.map_nil]
        rw [List.nodup_append]
        exact ⟨hnu, List.nodup_singleton _, by
          intro q hq hq1
          simp at hq1
          rw [hq1] at hq
          exact hpnotu hq⟩
      · intro q hq
        show q ∉ Core.ptrs (s.in_use ++ [_])
        simp only [Core.ptrs, List.map_append, List.map_cons, List.map_nil]
        intro hmem
        rcases List.mem_append.mp hmem with hmem | hmem
        · exact hdisj q (by rw [hfree]; exact List.mem_append_left _ hq) hmem
        · simp at hmem
          rw [hmem] at hq
          exact hfr.2 hq
      · show free'.length + (s.in_use ++ [_]).length = (s.pool.set p _).length
        have : s.free.length = free'.length + 1 := by rw [hfree]; simp
        simp only [List.length_append, List.length_cons, List.length_nil,
          List.length_set]
        omega

theorem Core.inv_destroy {T : Type} [Inhabited T] {s s' : Core.Scene T}
    {sp : Core.Spawn} (h : Core.Inv s) (hd : s.destroy sp = some s') :
    Core.Inv s' := by
  obtain ⟨hnf, hnu, hdisj, hlen⟩ := h
  unfold Core.Scene.destroy at hd
  cases hpos : position (fun x => x.pointer == sp.pointer) s.in_use with
  | none =>
    rw [hpos] at hd
    cases hd
    exact ⟨hnf, hnu, hdisj, hlen⟩
  | some u =>
    simp only [hpos] at hd
    by_cases hg : sp.group < s.groups.length
    · rw [if_pos hg] at hd
      obtain ⟨l₁, a, l₂, hl, -, hpa, herase⟩ := position_eq_some hpos
      have hap : a.pointer = sp.pointer := by simpa using hpa
      have hmemp : sp.pointer ∈ Core.ptrs s.in_use := by
        rw [hl]
        simp only [Core.ptrs, List.map_append, List.map_cons]
        exact List.mem_append_right _ (by simp [hap])
      have hpnf : sp.pointer ∉ s.free := by
        intro hc
        exact hdisj sp.pointer hc hmemp
      have hsub : List.Sublist (Core.ptrs (l₁ ++ l₂)) (Core.ptrs s.in_use) := by
        rw [hl]
        simp only [Core.ptrs, List.map_append, List.map_cons]
        exact List.Sublist.append_left (List.sublist_cons_self _ _) _
      have hmid : (Core.ptrs s.in_use) =
          Core.ptrs l₁ ++ sp.pointer :: Core.ptrs l₂ := by
        rw [hl]
        simp [Core.ptrs, hap]
      cases hd
      refine ⟨?_, ?_, ?_, ?_⟩
      · show (s.free ++ [sp.pointer]).Nodup
        rw [List.nodup_append]
        exact ⟨hnf, List.nodup_singleton _, by
          intro q hq hq1
          simp at hq1
          rw [hq1] at hq
          exact hpnf hq⟩
      · show (Core.ptrs (s.in_use.eraseIdx u)).Nodup
        rw [herase]
        exact hnu.sublist hsub
      · intro q hq
        show q ∉ Core.ptrs (s.in_use.eraseIdx u)
        rw [herase]
        rcases List.mem_append.mp hq with hq | hq
        · intro hc
          exact hdisj q hq (hsub.subset hc)
        · simp at hq
          rw [hq]
          have := hmid ▸ hnu
          have hnotin := (List.nodup_cons.mp (List.nodup_middle.mp this)).1
          intro hc
          apply hnotin
          simpa [Core.ptrs] using hc
      · show (s.free ++ [sp.pointer]).length + (s.in_use.eraseIdx u).length =
          s.pool.length
        have h1 : s.in_use.length = l₁.length + l₂.length + 1 := by
          rw [hl]; simp; omega
        have h2 : (s.in_use.eraseIdx u).length = l₁.length + l₂.length := by
          rw [herase]; simp
        simp only [List.length_append, List.length_cons, List.length_nil]
        omega
    · rw [if_neg hg] at hd
      cases hd

theorem Core.run_inv {T : Type} [Inhabited T] :
    ∀ (ops : List Core.Op) (s s' : Core.Scene T), Core.Inv s →
      Core.run s ops = some s' →
      Core.Inv s' ∧ s'.pool.length = s.pool.length := by
  intro ops
  induction ops with
  | nil =>
    intro s s' h hrun
    cases hrun
    exact ⟨h, rfl⟩
  | cons op ops ih =>
    intro s s' h hrun
    unfold Core.run at hrun
    cases op with
    | spawnOp name group =>
      simp only [Core.step] at hrun
      have h1 := Core.inv_spawn h name group
      have hp1 := Core.spawn_pool_length s name group
      obtain ⟨hi, hl⟩ := ih _ _ h1 hrun
      exact ⟨hi, by rw [hl, hp1]⟩
    | destroyOp sp =>
      simp only [Core.step] at hrun
      cases hdes : s.destroy sp with
      | none => rw [hdes] at hrun; cases hrun
      | some s1 =>
        rw [hdes] at hrun
        have h1 := Core.inv_destroy h hdes
        have hp1 : s1.pool = s.pool := Core.destroy_pool_eq hdes
        obtain ⟨hi, hl⟩ := ih _ _ h1 hrun
        exact ⟨hi, by rw [hl, hp1]⟩

/-- C1: for every capacity and factory list, after any sequence of
`spawn`/`destroy` calls (each completed call — a panicking `destroy`
leaves no after-state) the length of the free list plus the length of the
in_use list equals the capacity, and no pointer is simultaneously present
in the free list and among the in_use pointers. -/
theorem capacity_invariant_after_run {T : Type} [Inhabited T] (size : Nat)
    (factories : List (Core.Spawn → T)) (ops : List Core.Op) :
    Core.afterRunInv size (Core.run (Core.Scene.new size factories) ops) := by
  cases hrun : Core.run (Core.Scene.new size factories) ops with
  | none => simp [Core.afterRunInv]
  | some s' =>
    obtain ⟨hInv, hpool⟩ :=
      Core.run_inv ops _ s' (Core.inv_new size factories) hrun
    have hsize : (Core.Scene.new size factories : Core.Scene T).pool.length =
        size := by simp [Core.Scene.new]
    refine ⟨?_, ?_⟩
    · rw [hInv.2.2.2, hpool, hsize]
    · rintro p ⟨h1, h2⟩
      exact hInv.2.2.1 p h1 h2
